import Mathlib

/-!
Shallow embedding of the Study Space Station backend (`main.py`, `schemas.py`).

The MongoDB document store is modelled as in-memory lists of documents, one list
per collection, threaded explicitly through each handler.  Timestamps
(`datetime.now(timezone.utc)`) are modelled as integer minutes since an
arbitrary epoch; `.date()` is floor division by the 1440 minutes of a day,
matching Python floor semantics for negative values as well.  Mongo operations
are modelled by their documented semantics on those lists: `insert_one` appends,
`find` filters in insertion order, `find_one`/`update_one` act on the first
matching document, `$sample` picks an arbitrary element of the matched set
(modelled by an extra index argument ranging over all possible outcomes).
-/

namespace StudySpace

/-- Timestamps: minutes since an arbitrary epoch (UTC). -/
abbrev DateTime := Int

/-- Python `datetime.date()` on a timestamp: the UTC calendar day, via floor division
by the 1440 minutes of a day. -/
def dateOf (t : DateTime) : Int := Int.fdiv t 1440

/-- The `Literal["completed", "cancelled"]` field type from `CompleteSessionRequest` / `Session`. -/
inductive SessionStatus where
  | completed
  | cancelled
deriving DecidableEq, Repr

/-- The `Astronaut` document (`schemas.py`): username, optional avatar, level, xp,
streak, plus the timestamps `main.py` stores on creation. -/
structure Astronaut where
  username : String
  avatar : Option String := none
  level : Int := 1
  xp : Int := 0
  streak : Int := 0
  created_at : DateTime := 0
  updated_at : DateTime := 0
deriving DecidableEq, Repr

/-- The `Session` document (`schemas.py` plus the timestamp fields written by
`complete_session`). -/
structure Session where
  user : String
  duration_min : Int
  break_min : Int
  status : SessionStatus
  points_earned : Int
  started_at : DateTime
  ended_at : DateTime
  created_at : DateTime
  updated_at : DateTime
deriving DecidableEq, Repr

/-- The `Tip` document (`schemas.py`).  The schema restricts `category` to four
literals, but the API compares it against arbitrary query strings, so it is
modelled as a plain string. -/
structure Tip where
  title : String
  category : String
  tiktok_url : Option String := none
  tags : List String := []
deriving DecidableEq, Repr

/-- One playlist track.  `schemas.py` stores tracks as free-form dicts
"with \x7btitle, url\x7d"; only emptiness of the track list matters to the API,
so a track is modelled as its title/url pair. -/
structure Track where
  title : String
  url : String
deriving DecidableEq, Repr

/-- The `Playlist` document (`schemas.py`).  The schema restricts `name` to four
literals; modelled as a string since no handler depends on that restriction. -/
structure Playlist where
  name : String
  description : Option String := none
  cover : Option String := none
  tracks : List Track := []
deriving DecidableEq, Repr

/-- The document database: one list per collection used by `main.py`, in
insertion order (the order Mongo returns documents in for unsorted finds). -/
structure DB where
  astronaut : List Astronaut := []
  session : List Session := []
  tip : List Tip := []
  playlist : List Playlist := []
deriving DecidableEq, Repr

/-- Mongo `update_one` semantics: rewrite the first element satisfying `p` with `f`. -/
def setFirst (p : α → Bool) (f : α → α) : List α → List α
  | [] => []
  | x :: xs => if p x then f x :: xs else x :: setFirst p f xs

/-- Query `db["astronaut"].find_one(\x7b"username": u\x7d)` / `find(...).limit(1)`:
first astronaut document with the given username. -/
def findAstronaut (db : DB) (username : String) : Option Astronaut :=
  db.astronaut.find? (fun a => decide (a.username = username))

/-- Constant `POINTS_PER_MIN = 2` (`main.py`). -/
def POINTS_PER_MIN : Int := 2

/-- Constant `BONUS_COMPLETED = 25` (`main.py`). -/
def BONUS_COMPLETED : Int := 25

/-- Function `ensure_astronaut` (`main.py` lines 46-61): return the existing document for
`username`, or insert and return a fresh one with level 1, xp 0, streak 0. -/
def ensure_astronaut (db : DB) (now : DateTime) (username : String) :
    DB × Astronaut :=
  match findAstronaut db username with
  | some a => (db, a)
  | none =>
      let doc : Astronaut :=
        { username := username, avatar := none, level := 1, xp := 0, streak := 0
          created_at := now, updated_at := now }
      ({ db with astronaut := db.astronaut ++ [doc] }, doc)

/-- Return value of `add_xp_and_level`. -/
structure XpLevel where
  xp : Int
  level : Int
deriving DecidableEq, Repr

/-- Function `add_xp_and_level` (`main.py` lines 64-73): ensure the profile, add
`delta_xp` to its xp, recompute `level = max(1, new_xp // 250 + 1)` (Python
`//` is floor division, hence `Int.fdiv`), persist xp/level/updated_at on the
first matching document (`update_one` with `$set`), and return both values. -/
def add_xp_and_level (db : DB) (now : DateTime) (username : String)
    (delta_xp : Int) : DB × XpLevel :=
  let s := ensure_astronaut db now username
  let new_xp := s.2.xp + delta_xp
  let level := max 1 (Int.fdiv new_xp 250 + 1)
  let astronauts :=
    setFirst (fun a => decide (a.username = username))
      (fun a => { a with xp := new_xp, level := level, updated_at := now })
      s.1.astronaut
  ({ s.1 with astronaut := astronauts }, { xp := new_xp, level := level })

/-- The `ended_at` values of the completed sessions of `username`
(`db["session"].find(\x7b"user": username, "status": "completed"\x7d)`). -/
def completedEnds (db : DB) (username : String) : List DateTime :=
  (db.session.filter
      (fun s => decide (s.user = username ∧ s.status = SessionStatus.completed))).map
    (fun s => s.ended_at)

/-- The `ended_at` of the most recently ended completed session of `username`:
the `.sort("ended_at", -1).limit(1)` query of `update_streak`.  The sort key of
the first returned document is the maximum `ended_at` of the matched set. -/
def lastCompletedEnd (db : DB) (username : String) : Option DateTime :=
  (completedEnds db username).max?

/-- Update `update_one(\x7b"username": u\x7d, \x7b"$set": \x7b"streak": s\x7d\x7d)`:
set the streak of the first astronaut document matching `username`. -/
def setStreak (db : DB) (username : String) (streak : Int) : DB :=
  let astronauts :=
    setFirst (fun a => decide (a.username = username))
      (fun a => { a with streak := streak }) db.astronaut
  { db with astronaut := astronauts }

/-- Function `update_streak` (`main.py` lines 76-97): look up the most recent completed
session end; ensure the profile; if that end is today, return the stored streak
without writing; if it is exactly yesterday, increment; otherwise (including no
completed session at all) reset to 1; persist and return the result. -/
def update_streak (db : DB) (now : DateTime) (username : String) : DB × Int :=
  let today := dateOf now
  let last_dt := lastCompletedEnd db username
  let s := ensure_astronaut db now username
  let current_streak := s.2.streak
  match last_dt with
  | some d =>
      if dateOf d = today then (s.1, current_streak)
      else if dateOf d = today - 1 then
        (setStreak s.1 username (current_streak + 1), current_streak + 1)
      else (setStreak s.1 username 1, 1)
  | none => (setStreak s.1 username 1, 1)

/-- Request body of `POST /api/sessions/complete` (`CompleteSessionRequest`). -/
structure CompleteSessionRequest where
  user : String
  duration_min : Int
  break_min : Int := 5
  status : SessionStatus := SessionStatus.completed
deriving DecidableEq, Repr

/-- Response of `POST /api/sessions/complete`; `session_id` is the inserted
document identifier, modelled as the document position in the collection. -/
structure CompleteResponse where
  session_id : Nat
  points : Int
  xp : Int
  level : Int
  streak : Int
deriving DecidableEq, Repr

/-- Handler `complete_session` (`main.py` lines 196-229): compute points
(`duration_min * POINTS_PER_MIN`, plus `BONUS_COMPLETED` when completed),
insert the Session document (ended now, started `duration_min + break_min`
minutes earlier), award the points as xp, then update the streak when the
status is completed (otherwise report the stored streak). -/
def complete_session (db : DB) (now : DateTime)
    (payload : CompleteSessionRequest) : DB × CompleteResponse :=
  let points0 := payload.duration_min * POINTS_PER_MIN
  let points :=
    if payload.status = SessionStatus.completed then points0 + BONUS_COMPLETED
    else points0
  let session_doc : Session :=
    { user := payload.user
      duration_min := payload.duration_min
      break_min := payload.break_min
      status := payload.status
      points_earned := points
      started_at := now - (payload.duration_min + payload.break_min)
      ended_at := now
      created_at := now
      updated_at := now }
  let sid := db.session.length
  let db1 := { db with session := db.session ++ [session_doc] }
  let s2 := add_xp_and_level db1 now payload.user points
  let s3 :=
    if payload.status = SessionStatus.completed then
      update_streak s2.1 now payload.user
    else
      let sx := ensure_astronaut s2.1 now payload.user
      (sx.1, sx.2.streak)
  (s3.1,
    { session_id := sid, points := points, xp := s2.2.xp, level := s2.2.level
      streak := s3.2 })

/-- One pattern character matches one text character, case-insensitively:
the dot wildcard matches anything, a literal matches up to `toLower`.  This is
the per-character semantics of a PCRE pattern under option `i`. -/
def charMatchesI (pc tc : Char) : Bool :=
  pc == '.' || pc.toLower == tc.toLower

/-- The pattern matches a prefix of the text (dot = wildcard, case-insensitive
literals). -/
def matchAt : List Char → List Char → Bool
  | [], _ => true
  | _ :: _, [] => false
  | pc :: ps, tc :: ts => charMatchesI pc tc && matchAt ps ts

/-- The pattern matches at some position of the text (unanchored search). -/
def searchFrom (pat : List Char) : List Char → Bool
  | [] => pat.isEmpty
  | tc :: ts => matchAt pat (tc :: ts) || searchFrom pat ts

/-- Mongo `\x7b"$regex": pattern, "$options": "i"\x7d` as `list_tips` issues it:
case-insensitive unanchored regular-expression search.  Modelled for the PCRE
fragment of patterns made of literal characters and the dot wildcard; other
PCRE constructs (quantifiers, classes, anchors, escapes) are outside the
fragment and theorems below only quantify over patterns inside it. -/
def regexSearchI (pattern text : String) : Bool :=
  searchFrom pattern.toList text.toList

/-- Spec-side notion (claim wording): `sub` occurs in `text` as a
case-insensitive literal prefix at the head position. -/
def leadsCI : List Char → List Char → Bool
  | [], _ => true
  | _ :: _, [] => false
  | pc :: ps, tc :: ts => (pc.toLower == tc.toLower) && leadsCI ps ts

/-- Spec-side notion: `pat` occurs as a case-insensitive literal substring. -/
def subSearchCI (pat : List Char) : List Char → Bool
  | [] => pat.isEmpty
  | tc :: ts => leadsCI pat (tc :: ts) || subSearchCI pat ts

/-- Spec-side notion (claim wording): `text` contains `sub` as a
case-insensitive substring. -/
def containsCI (text sub : String) : Bool :=
  subSearchCI sub.toList text.toList

/-- The characters PCRE treats specially; a pattern avoiding all of them is a
literal string (matched case-insensitively under option `i`). -/
def regexMetachars : List Char :=
  ['.', '^', '$', '*', '+', '?', '(', ')', '[', ']', '\x7b', '\x7d', '|', '\\']

/-- Predicate: `q` contains no PCRE metacharacter. -/
def metacharFree (q : String) : Prop :=
  ∀ c ∈ q.toList, c ∉ regexMetachars

instance (q : String) : Decidable (metacharFree q) := by
  unfold metacharFree
  infer_instance

/-- Cursor `.limit(n)` in pymongo: `n = 0` means no limit, positive `n`
truncates.  (Negative limits are not modelled; FastAPI delivers the query
parameter as an int, and the claims only concern the default 24.) -/
def mongoLimit (limit : Nat) (l : List α) : List α :=
  if limit = 0 then l else l.take limit

/-- The category restriction of `list_tips` / `random_tip`: Python
`if category:` skips the filter when the argument is `None` or falsy, so the
empty string imposes no restriction. -/
def categoryOk (category : Option String) (t : Tip) : Bool :=
  match category with
  | none => true
  | some c => if c = "" then true else decide (t.category = c)

/-- Handler `list_tips` (`main.py` lines 127-139): optional exact category filter,
optional `$or` of a case-insensitive title regex and an exact tags membership
(both skipped for falsy arguments), truncated by `limit` (default 24). -/
def list_tips (db : DB) (category : Option String) (q : Option String)
    (limit : Nat) : List Tip :=
  let qOk : Tip → Bool := fun t =>
    match q with
    | none => true
    | some qs =>
        if qs = "" then true
        else regexSearchI qs t.title || decide (qs ∈ t.tags)
  mongoLimit limit (db.tip.filter (fun t => categoryOk category t && qOk t))

/-- Handler `random_tip` (`main.py` lines 142-155): `$match` on the category when the
argument is truthy, then `$sample` of size 1.  The random choice is modelled by
the extra index `k`: as `k` ranges over naturals, the result ranges over every
possible outcome of the sample. -/
def random_tip (db : DB) (category : Option String) (k : Nat) : Option Tip :=
  let sampled := db.tip.filter (categoryOk category)
  match sampled with
  | [] => none
  | t :: ts => some ((t :: ts).getD (k % (ts.length + 1)) t)

/-- The three fallback playlists of `playlists` (`main.py` lines 170-189). -/
def fallbackPlaylists : List Playlist :=
  [{ name := "Lofi", description := some ("Chill beats for deep focus."),
     cover := none, tracks := [] },
   { name := "Ambient", description := some ("Soft textures and cosmic drones."),
     cover := none, tracks := [] },
   { name := "Nature", description := some ("Rain, wind, and distant thunder."),
     cover := none, tracks := [] }]

/-- Handler `playlists` (`main.py` lines 161-190): all stored Playlist documents, or
the fixed fallback set when the collection is empty. -/
def playlists (db : DB) : List Playlist :=
  let docs := db.playlist
  if docs.isEmpty then fallbackPlaylists else docs

/-- The `Literal["week", "all"]` type of the leaderboard query. -/
inductive Period where
  | week
  | all
deriving DecidableEq, Repr

/-- The `$match` filter of `leaderboard`: status completed and, for the weekly
period, `ended_at >= now - 7 days`. -/
def sessionInWindow (now : DateTime) (period : Period) (s : Session) : Bool :=
  decide (s.status = SessionStatus.completed) &&
    (match period with
     | Period.week => decide (now - 7 * 1440 ≤ s.ended_at)
     | Period.all => true)

/-- The sessions passing the leaderboard `$match` stage. -/
def lbMatched (db : DB) (now : DateTime) (period : Period) : List Session :=
  db.session.filter (sessionInWindow now period)

/-- The `$group` stage: one `(user, summed points_earned)` pair per distinct
user of the matched sessions.  Mongo does not specify the order of groups; any
order is sound because the next stage sorts. -/
def groupPoints (db : DB) (now : DateTime) (period : Period) :
    List (String × Int) :=
  let matched := lbMatched db now period
  ((matched.map (fun s => s.user)).dedup).map
    (fun u =>
      (u, ((matched.filter (fun s => decide (s.user = u))).map
            (fun s => s.points_earned)).sum))

/-- Insert a `(user, points)` pair into a list sorted by descending points. -/
def insertPairDesc (x : String × Int) : List (String × Int) → List (String × Int)
  | [] => [x]
  | y :: ys => if y.2 < x.2 then x :: y :: ys else y :: insertPairDesc x ys

/-- The `$sort \x7b"points": -1\x7d` stage: sort descending by points (Mongo
leaves the relative order of ties unspecified; insertion sort realizes one
admissible outcome). -/
def sortPairsDesc : List (String × Int) → List (String × Int)
  | [] => []
  | x :: xs => insertPairDesc x (sortPairsDesc xs)

/-- One row of the leaderboard response. -/
structure LBRow where
  username : String
  points : Int
  level : Int
deriving DecidableEq, Repr

/-- Handler `leaderboard` (`main.py` lines 232-255): match completed (and, for
`period="week"`, recent) sessions, group by user summing `points_earned`, sort
descending, truncate to `limit` (`$limit` requires a positive argument; the
default is 10), then join each row with the level of the first astronaut
document of that username, defaulting to 1 when none exists. -/
def leaderboard (db : DB) (now : DateTime) (period : Period) (limit : Nat) :
    List LBRow :=
  let rows := (sortPairsDesc (groupPoints db now period)).take limit
  rows.map (fun r =>
    { username := r.1, points := r.2,
      level := match findAstronaut db r.1 with
               | some a => a.level
               | none => 1 })

/-- The five learning styles of the request schema. -/
inductive LearningStyle where
  | visual
  | auditory
  | reading
  | kinesthetic
  | mixed
deriving DecidableEq, Repr

/-- Table `style_map` of `generate_plan`: the fixed ordered 3-method list of each
learning style.  The request schema makes unknown styles unrepresentable, so
the `.get(..., mixed)` fallback of the source never fires. -/
def style_map (style : LearningStyle) : List String :=
  match style with
  | LearningStyle.visual => ["Mind maps", "Diagram study", "Color-coded notes"]
  | LearningStyle.auditory => ["Explain aloud", "Podcast recap", "Record and replay"]
  | LearningStyle.reading => ["SQ3R method", "Active recall", "Cornell notes"]
  | LearningStyle.kinesthetic => ["Practice questions", "Teach a friend", "Flashcards walk"]
  | LearningStyle.mixed => ["Pomodoro x5", "Blurting", "Spaced repetition"]

/-- Request body of `POST /api/plan` (`PlanRequest`): FastAPI validates
`timeframe_days` into `[1, 60]` and `daily_hours` into `[0.5, 12]`.
`daily_hours` is a Python float; it is modelled as a rational, which is exact
for the two operations the handler performs on it (floor division by 0.5, a
power of two, is exact in binary floating point). -/
structure PlanRequest where
  subject : String
  timeframe_days : Nat
  daily_hours : ℚ
  learning_style : LearningStyle := LearningStyle.mixed
deriving DecidableEq, Repr

/-- One 30-minute focus block of the generated schedule. -/
structure FocusBlock where
  label : String
  minutes : Nat
  method : String
deriving DecidableEq, Repr

/-- One day of the generated schedule.  `date` is the UTC calendar day
(start day + index); the source renders it as an ISO string. -/
structure DayPlan where
  date : Int
  goal : String
  blocks : List FocusBlock
deriving DecidableEq, Repr

/-- Response of `POST /api/plan`. -/
structure Plan where
  subject : String
  learning_style : LearningStyle
  daily_hours : ℚ
  timeframe_days : Nat
  schedule : List DayPlan
deriving DecidableEq, Repr

/-- Handler `generate_plan` (`main.py` lines 272-307): `blocks = max(1, ⌊daily_hours //
0.5⌋)` 30-minute blocks per day, methods assigned cyclically by block index
modulo the 3-method list, one day entry per day of the timeframe starting
today (`startDay`).  The goal string shows `int(daily_hours * 60)` minutes,
modelled as the rational floor (exact for the representable inputs the claims
quantify over). -/
def generate_plan (req : PlanRequest) (startDay : Int) : Plan :=
  let days := req.timeframe_days
  let per_day_hours := req.daily_hours
  let blocks := max 1 (⌊per_day_hours / (1/2 : ℚ)⌋.toNat)
  let methods := style_map req.learning_style
  let subj := req.subject
  let goalMinutes := ⌊per_day_hours * 60⌋
  let schedule := (List.range days).map (fun (i : Nat) =>
    let date := startDay + (i : Int)
    let dayBlocks := (List.range blocks).map (fun b =>
      let n := b + 1
      FocusBlock.mk (s!"Focus Block {n}") 30 (methods.getD (b % methods.length) ""))
    DayPlan.mk date (s!"{subj}: {goalMinutes} min focus") dayBlocks)
  { subject := req.subject, learning_style := req.learning_style,
    daily_hours := per_day_hours, timeframe_days := days, schedule := schedule }

/-- Spec-side: the stored streak of a username, 0 when no document exists
(the default a freshly ensured profile carries). -/
def streakOf (db : DB) (username : String) : Int :=
  ((findAstronaut db username).map (fun a => a.streak)).getD 0

/-- Spec-side: the stored xp of a username, 0 when no document exists. -/
def oldXp (db : DB) (username : String) : Int :=
  ((findAstronaut db username).map (fun a => a.xp)).getD 0

/-- Spec-side: the stored level of a username, defaulting to 1 as the
leaderboard join does. -/
def levelOf (db : DB) (username : String) : Int :=
  match findAstronaut db username with
  | some a => a.level
  | none => 1

/-- Fixture: a 30-minute completed submission. -/
def exReqC : CompleteSessionRequest := { user := ("alice"), duration_min := 30 }

/-- Fixture: a 30-minute cancelled submission. -/
def exReqX : CompleteSessionRequest :=
  { user := ("alice"), duration_min := 30, status := SessionStatus.cancelled }

/-- Fixture: 10:00 UTC on day 20. -/
def exNow : DateTime := 20 * 1440 + 600

/-- Fixture: alice with a 1-day streak. -/
def exAlice : Astronaut := { username := ("alice"), streak := 1, xp := 60, level := 1 }

/-- Fixture: a completed session of alice that ended yesterday (day 19). -/
def exPrevSession : Session :=
  { user := ("alice"), duration_min := 30, break_min := 5
    status := SessionStatus.completed, points_earned := 85
    started_at := 19 * 1440 + 565, ended_at := 19 * 1440 + 600
    created_at := 19 * 1440 + 600, updated_at := 19 * 1440 + 600 }

/-- Fixture: a completed session of alice that ended earlier today (day 20). -/
def exTodaySession : Session :=
  { user := ("alice"), duration_min := 30, break_min := 5
    status := SessionStatus.completed, points_earned := 85
    started_at := 20 * 1440 + 65, ended_at := 20 * 1440 + 100
    created_at := 20 * 1440 + 100, updated_at := 20 * 1440 + 100 }

/-- Fixture: alice plus her yesterday session. -/
def exDbYesterday : DB := { astronaut := [exAlice], session := [exPrevSession] }

/-- Fixture: alice plus a session already counted today. -/
def exDbToday : DB := { astronaut := [exAlice], session := [exTodaySession] }

/-- Fixture: one stored tip. -/
def exTip : Tip := { title := "x", category := "Memory" }

/-- Fixture: a tip collection holding only `exTip`. -/
def exTipDb : DB := { tip := [exTip] }

/-- Fixture: a tip whose title contains the word hard in upper case. -/
def exTipHard : Tip := { title := "Study HARD", category := "Focus", tags := ["exam"] }

/-- Fixture: a tip collection for the substring witness. -/
def exTipDbHard : DB := { tip := [exTipHard, exTip] }

/-- Fixture sessions for the leaderboard: two completed, one cancelled. -/
def exS1 : Session :=
  { user := "a", duration_min := 10, break_min := 5
    status := SessionStatus.completed, points_earned := 45
    started_at := 0, ended_at := exNow, created_at := exNow, updated_at := exNow }

/-- Fixture: the higher-scoring completed session. -/
def exS2 : Session :=
  { user := "b", duration_min := 50, break_min := 5
    status := SessionStatus.completed, points_earned := 125
    started_at := 0, ended_at := exNow, created_at := exNow, updated_at := exNow }

/-- Fixture: a cancelled session that must not contribute. -/
def exS3 : Session :=
  { user := "a", duration_min := 5, break_min := 5
    status := SessionStatus.cancelled, points_earned := 10
    started_at := 0, ended_at := exNow, created_at := exNow, updated_at := exNow }

/-- Fixture: leaderboard database. -/
def exDbLB : DB := { session := [exS1, exS2, exS3] }

/-- Fixture: the expected top leaderboard row of `exDbLB`. -/
def exRowB : LBRow := { username := "b", points := 125, level := 1 }

/-- Fixture: the plan request of spec §8.5. -/
def exPlanReq : PlanRequest :=
  { subject := "Biology", timeframe_days := 3, daily_hours := 1
    learning_style := LearningStyle.reading }

/-! Helper lemmas about the persistence primitives. -/

theorem find?_setFirst (p : α → Bool) (f : α → α) (l : List α)
    (hf : ∀ x, p x = true → p (f x) = true) :
    (setFirst p f l).find? p = (l.find? p).map f := by
  induction l with
  | nil => simp [setFirst]
  | cons x xs ih =>
      cases hx : p x with
      | true => simp [setFirst, hx, List.find?_cons, hf x hx]
      | false => simp [setFirst, hx, List.find?_cons, ih]

theorem ensure_astronaut_of_found {db : DB} {u : String} {a : Astronaut}
    (now : DateTime) (h : findAstronaut db u = some a) :
    ensure_astronaut db now u = (db, a) := by
  simp [ensure_astronaut, h]

theorem findAstronaut_ensure (db : DB) (now : DateTime) (u : String) :
    findAstronaut (ensure_astronaut db now u).1 u =
      some (ensure_astronaut db now u).2 := by
  cases h : findAstronaut db u with
  | some a => simp [ensure_astronaut, h]
  | none =>
      simp only [ensure_astronaut, h]
      unfold findAstronaut at h ⊢
      simp [List.find?_append, h]

theorem ensure_username (db : DB) (now : DateTime) (u : String) :
    (ensure_astronaut db now u).2.username = u := by
  cases h : findAstronaut db u with
  | some a =>
      have := List.find?_some h
      simp only [decide_eq_true_eq] at this
      simp [ensure_astronaut, h, this]
  | none => simp [ensure_astronaut, h]

theorem ensure_streak (db : DB) (now : DateTime) (u : String) :
    (ensure_astronaut db now u).2.streak = streakOf db u := by
  cases h : findAstronaut db u with
  | some a => simp [ensure_astronaut, streakOf, h]
  | none => simp [ensure_astronaut, streakOf, h]

theorem ensure_xp (db : DB) (now : DateTime) (u : String) :
    (ensure_astronaut db now u).2.xp = oldXp db u := by
  cases h : findAstronaut db u with
  | some a => simp [ensure_astronaut, oldXp, h]
  | none => simp [ensure_astronaut, oldXp, h]

theorem ensure_session (db : DB) (now : DateTime) (u : String) :
    (ensure_astronaut db now u).1.session = db.session := by
  cases h : findAstronaut db u with
  | some a => simp [ensure_astronaut, h]
  | none => simp [ensure_astronaut, h]

theorem add_xp_session (db : DB) (now : DateTime) (u : String) (d : Int) :
    (add_xp_and_level db now u d).1.session = db.session := by
  simp [add_xp_and_level, ensure_session]

theorem setStreak_session (db : DB) (u : String) (s : Int) :
    (setStreak db u s).session = db.session := rfl

theorem update_streak_session (db : DB) (now : DateTime) (u : String) :
    (update_streak db now u).1.session = db.session := by
  unfold update_streak
  cases lastCompletedEnd db u with
  | none => simp [setStreak_session, ensure_session]
  | some d =>
      by_cases h1 : dateOf d = dateOf now
      · simp [h1, ensure_session]
      · by_cases h2 : dateOf d = dateOf now - 1 <;>
          simp [h1, h2, setStreak_session, ensure_session]

theorem streakOf_setStreak (db : DB) (u : String) (s : Int)
    (h : (findAstronaut db u).isSome) : streakOf (setStreak db u s) u = s := by
  unfold streakOf setStreak findAstronaut
  rw [find?_setFirst]
  · cases hf : db.astronaut.find? (fun a => decide (a.username = u)) with
    | none => rw [findAstronaut] at h; simp [hf] at h
    | some a => simp
  · intro x hx; simpa using hx

theorem findAstronaut_add_xp (db : DB) (now : DateTime) (u : String) (d : Int) :
    (findAstronaut (add_xp_and_level db now u d).1 u).map (fun a => a.xp) =
        some (add_xp_and_level db now u d).2.xp ∧
      (findAstronaut (add_xp_and_level db now u d).1 u).map (fun a => a.level) =
        some (add_xp_and_level db now u d).2.level := by
  have hfind := findAstronaut_ensure db now u
  unfold add_xp_and_level
  unfold findAstronaut at hfind ⊢
  rw [find?_setFirst]
  · rw [hfind]; simp
  · intro x hx; simpa using hx

/-- Claim C1: for every valid session submission (`duration_min >= 1`,
`break_min >= 0`), `complete_session` computes `points = duration_min *
POINTS_PER_MIN` plus `BONUS_COMPLETED` exactly when the status is completed;
the returned points and the `points_earned` of the persisted Session document
both equal this value, e.g. 85 for a completed and 60 for a cancelled
30-minute session. -/
theorem claim_C1 (db : DB) (now : DateTime) (p : CompleteSessionRequest)
    (hdur : 1 ≤ p.duration_min) (hbrk : 0 ≤ p.break_min) :
    (complete_session db now p).2.points =
      p.duration_min * POINTS_PER_MIN +
        (if p.status = SessionStatus.completed then BONUS_COMPLETED else 0) ∧
    ((complete_session db now p).1.session.getLast?).map (fun s => s.points_earned) =
      some ((complete_session db now p).2.points) ∧
    (complete_session db now { user := p.user, duration_min := 30 }).2.points = 85 ∧
    (complete_session db now { user := p.user, duration_min := 30, status := SessionStatus.cancelled }).2.points = 60 := by
  refine ⟨?_, ?_, ?_, ?_⟩
  · by_cases h : p.status = SessionStatus.completed <;>
      simp [complete_session, h]
  · by_cases h : p.status = SessionStatus.completed <;>
      simp [complete_session, h, update_streak_session, add_xp_session,
        ensure_session, List.getLast?_concat]
  · simp [complete_session, POINTS_PER_MIN, BONUS_COMPLETED]
  · simp [complete_session, POINTS_PER_MIN, BONUS_COMPLETED]

/-- Witness for C1: the hypotheses hold at the 30-minute completed request and
the computed points are 85. -/
theorem claim_C1_witness :
    (1 : Int) ≤ exReqC.duration_min ∧ (0 : Int) ≤ exReqC.break_min ∧
    (complete_session exDbYesterday exNow exReqC).2.points = 85 := by
  refine ⟨by decide, by decide, ?_⟩
  have h := (claim_C1 exDbYesterday exNow exReqC (by decide) (by decide)).1
  norm_num [exReqC, POINTS_PER_MIN, BONUS_COMPLETED] at h
  exact h

/-- Claim C2: `add_xp_and_level` adds `delta_xp` to the stored xp (0 for a
fresh profile), recomputes `level = max(1, new_xp // 250 + 1)` (`Int.fdiv` is
Python floor division), persists both on the astronaut document and returns
exactly these values; in particular total xp 0 and 249 give level 1, 250 gives
2, 999 gives 4. -/
theorem claim_C2 (db : DB) (now : DateTime) (u : String) (d : Int) :
    (add_xp_and_level db now u d).2.xp = oldXp db u + d ∧
    (add_xp_and_level db now u d).2.level =
      max 1 (Int.fdiv (oldXp db u + d) 250 + 1) ∧
    (findAstronaut (add_xp_and_level db now u d).1 u).map (fun a => a.xp) =
      some (oldXp db u + d) ∧
    (findAstronaut (add_xp_and_level db now u d).1 u).map (fun a => a.level) =
      some (max 1 (Int.fdiv (oldXp db u + d) 250 + 1)) ∧
    (add_xp_and_level {} now ("a") 0).2.level = 1 ∧
    (add_xp_and_level {} now ("a") 249).2.level = 1 ∧
    (add_xp_and_level {} now ("a") 250).2.level = 2 ∧
    (add_xp_and_level {} now ("a") 999).2.level = 4 := by
  have hxp : (add_xp_and_level db now u d).2.xp = oldXp db u + d := by
    simp [add_xp_and_level, ensure_xp]
  have hlvl : (add_xp_and_level db now u d).2.level =
      max 1 (Int.fdiv (oldXp db u + d) 250 + 1) := by
    simp [add_xp_and_level, ensure_xp]
  have hmap := findAstronaut_add_xp db now u d
  refine ⟨hxp, hlvl, ?_, ?_, rfl, rfl, rfl, rfl⟩
  · rw [hmap.1, hxp]
  · rw [hmap.2, hlvl]

/-- Claim C3 (code bug): end-to-end through `complete_session`, a user with
streak 1 whose last completed session ended yesterday submits a completed
session today: the endpoint returns streak 1 and stores streak 1, not the
incremented 2 the claim requires — `complete_session` inserts the new session
before calling `update_streak`, so `update_streak` always sees a completed
session that ended today and takes the already-counted branch.  In isolation
`update_streak` on the same prior state does return 2. -/
theorem claim_C3_streak_frozen :
    (complete_session exDbYesterday exNow exReqC).2.streak = 1 ∧
    (findAstronaut (complete_session exDbYesterday exNow exReqC).1 ("alice")).map
        (fun a => a.streak) = some 1 ∧
    (update_streak exDbYesterday exNow ("alice")).2 = 2 := by decide

/-- Claim C4: `update_streak` in isolation: no completed session gives streak
1; a most recent completed session ended today leaves the stored streak
unchanged; ended exactly yesterday increments it; any other case resets it to
1; the returned value always equals the resulting stored streak. -/
theorem claim_C4 (db : DB) (now : DateTime) (u : String) :
    (lastCompletedEnd db u = none →
      (update_streak db now u).2 = 1 ∧
      streakOf (update_streak db now u).1 u = 1) ∧
    (∀ d, lastCompletedEnd db u = some d → dateOf d = dateOf now →
      (update_streak db now u).2 = streakOf db u ∧
      streakOf (update_streak db now u).1 u = streakOf db u) ∧
    (∀ d, lastCompletedEnd db u = some d → dateOf d = dateOf now - 1 →
      (update_streak db now u).2 = streakOf db u + 1 ∧
      streakOf (update_streak db now u).1 u = streakOf db u + 1) ∧
    (∀ d, lastCompletedEnd db u = some d → dateOf d ≠ dateOf now →
      dateOf d ≠ dateOf now - 1 →
      (update_streak db now u).2 = 1 ∧
      streakOf (update_streak db now u).1 u = 1) := by
  have hsome : (findAstronaut (ensure_astronaut db now u).1 u).isSome := by
    simp [findAstronaut_ensure]
  refine ⟨?_, ?_, ?_, ?_⟩
  · intro h
    simp only [update_streak, h]
    exact ⟨by simp, streakOf_setStreak _ u 1 hsome⟩
  · intro d hd h1
    simp only [update_streak, hd]
    rw [if_pos h1]
    refine ⟨ensure_streak db now u, ?_⟩
    show streakOf (ensure_astronaut db now u).1 u = streakOf db u
    unfold streakOf
    rw [findAstronaut_ensure]
    simpa using ensure_streak db now u
  · intro d hd h1
    simp only [update_streak, hd]
    rw [if_neg (by rw [h1]; omega), if_pos h1]
    refine ⟨by rw [ensure_streak], ?_⟩
    show streakOf (setStreak (ensure_astronaut db now u).1 u
        ((ensure_astronaut db now u).2.streak + 1)) u = streakOf db u + 1
    rw [streakOf_setStreak _ u _ hsome, ensure_streak]
  · intro d hd h1 h2
    simp only [update_streak, hd]
    rw [if_neg h1, if_neg h2]
    exact ⟨by simp, streakOf_setStreak _ u 1 hsome⟩

/-- Witness for C4: on alice whose completed session ended yesterday, the
increment branch applies and yields streak 2. -/
theorem claim_C4_witness :
    lastCompletedEnd exDbYesterday ("alice") = some exPrevSession.ended_at ∧
    dateOf exPrevSession.ended_at = dateOf exNow - 1 ∧
    (update_streak exDbYesterday exNow ("alice")).2 =
      streakOf exDbYesterday ("alice") + 1 := by
  refine ⟨by decide, by decide, ?_⟩
  exact ((claim_C4 exDbYesterday exNow ("alice")).2.2.1 exPrevSession.ended_at
    (by decide) (by decide)).1

/-- Claim C10: when the astronaut document exists and the most recent completed
session ended on the current UTC date, `update_streak` returns the stored
streak and performs no write at all: the database is returned unchanged. -/
theorem claim_C10 (db : DB) (now : DateTime) (u : String) (a : Astronaut)
    (d : DateTime) (ha : findAstronaut db u = some a)
    (hd : lastCompletedEnd db u = some d) (htoday : dateOf d = dateOf now) :
    update_streak db now u = (db, a.streak) := by
  simp only [update_streak, hd, ensure_astronaut_of_found now ha]
  rw [if_pos htoday]

/-- Witness for C10: alice with a session already counted today; the call
returns her stored streak 1 and leaves the database untouched. -/
theorem claim_C10_witness :
    findAstronaut exDbToday ("alice") = some exAlice ∧
    lastCompletedEnd exDbToday ("alice") = some exTodaySession.ended_at ∧
    dateOf exTodaySession.ended_at = dateOf exNow ∧
    update_streak exDbToday exNow ("alice") = (exDbToday, exAlice.streak) := by
  refine ⟨by decide, by decide, by decide, ?_⟩
  exact claim_C10 exDbToday exNow ("alice") exAlice exTodaySession.ended_at
    (by decide) (by decide) (by decide)

theorem style_map_length (s : LearningStyle) : (style_map s).length = 3 := by
  cases s <;> rfl

/-- Claim C5: `generate_plan` returns exactly `timeframe_days` daily entries,
each with exactly `max(1, ⌊daily_hours / 0.5⌋)` focus blocks of 30 minutes,
block `b` carrying the method at position `b mod 3` of the fixed 3-method list
of the learning style. -/
theorem claim_C5 (req : PlanRequest) (startDay : Int)
    (h1 : 1 ≤ req.timeframe_days) (h2 : req.timeframe_days ≤ 60)
    (h3 : (1/2 : ℚ) ≤ req.daily_hours) (h4 : req.daily_hours ≤ 12) :
    (generate_plan req startDay).timeframe_days = req.timeframe_days ∧
    (generate_plan req startDay).schedule.length = req.timeframe_days ∧
    ∀ day ∈ (generate_plan req startDay).schedule,
      day.blocks.length = max 1 (⌊req.daily_hours / (1/2 : ℚ)⌋.toNat) ∧
      ∀ (b : Nat) (hb : b < day.blocks.length),
        (day.blocks.get ⟨b, hb⟩).minutes = 30 ∧
        (day.blocks.get ⟨b, hb⟩).method =
          (style_map req.learning_style).getD (b % 3) "" := by
  refine ⟨rfl, ?_, ?_⟩
  · simp only [generate_plan, List.length_map, List.length_range]
  · intro day hday
    simp only [generate_plan, List.mem_map, List.mem_range] at hday
    obtain ⟨i, hi, rfl⟩ := hday
    refine ⟨by simp, ?_⟩
    intro b hb
    refine ⟨by simp [List.get_eq_getElem], ?_⟩
    simp only [List.get_eq_getElem, List.getElem_map, List.getElem_range]
    rw [style_map_length]

/-- Witness for C5: the request of spec §8.5 (Biology, 3 days, 1 hour,
reading) satisfies the bounds and yields a 3-day schedule. -/
theorem claim_C5_witness :
    (1 ≤ exPlanReq.timeframe_days ∧ exPlanReq.timeframe_days ≤ 60 ∧
      (1/2 : ℚ) ≤ exPlanReq.daily_hours ∧ exPlanReq.daily_hours ≤ 12) ∧
    (generate_plan exPlanReq 0).schedule.length = exPlanReq.timeframe_days := by
  refine ⟨⟨by decide, by decide, by norm_num [exPlanReq], by norm_num [exPlanReq]⟩, ?_⟩
  exact (claim_C5 exPlanReq 0 (by decide) (by decide) (by norm_num [exPlanReq])
    (by norm_num [exPlanReq])).2.1

/-- Claim C7: on an empty playlist collection the endpoint returns exactly the
three fallback playlists Lofi, Ambient, Nature, each with no tracks and no
cover; on a non-empty collection it returns all stored documents; it never
returns an empty list. -/
theorem claim_C7 (db : DB) :
    (db.playlist = [] →
      playlists db = fallbackPlaylists ∧
      (playlists db).map (fun p => p.name) = ["Lofi", "Ambient", "Nature"] ∧
      ∀ p ∈ playlists db, p.tracks = [] ∧ p.cover = none) ∧
    (db.playlist ≠ [] → playlists db = db.playlist) ∧
    playlists db ≠ [] := by
  by_cases h : db.playlist = []
  · have hp : playlists db = fallbackPlaylists := by simp [playlists, h]
    refine ⟨fun _ => ⟨hp, ?_, ?_⟩, fun hn => absurd h hn, ?_⟩
    · rw [hp]; decide
    · rw [hp]; decide
    · rw [hp]; decide
  · have hne : ¬ db.playlist.isEmpty := by
      simpa [List.isEmpty_iff] using h
    have hp : playlists db = db.playlist := by simp [playlists, hne]
    exact ⟨fun he => absurd he h, fun _ => hp, by rw [hp]; exact h⟩

/-- Witness for C7: the empty database triggers the fallback branch. -/
theorem claim_C7_witness :
    ({} : DB).playlist = [] ∧ playlists {} = fallbackPlaylists := by
  exact ⟨rfl, ((claim_C7 {}).1 rfl).1⟩

/-! Helper lemmas for the tip endpoints. -/

theorem random_tip_eq_none_iff (db : DB) (category : Option String) (k : Nat) :
    random_tip db category k = none ↔
      db.tip.filter (categoryOk category) = [] := by
  unfold random_tip
  cases h : db.tip.filter (categoryOk category) <;> simp [h]

theorem random_tip_mem (db : DB) (category : Option String) (k : Nat) (t : Tip)
    (h : random_tip db category k = some t) :
    t ∈ db.tip.filter (categoryOk category) := by
  unfold random_tip at h
  cases hf : db.tip.filter (categoryOk category) with
  | nil => rw [hf] at h; simp at h
  | cons x xs =>
      rw [hf] at h
      simp only [Option.some.injEq] at h
      subst h
      have hlt : k % (xs.length + 1) < (x :: xs).length := by
        simpa using Nat.mod_lt k (Nat.succ_pos xs.length)
      simp only [List.getD_eq_getElem?_getD, List.getElem?_eq_getElem hlt,
        Option.getD_some]
      exact List.getElem_mem hlt

/-- Claim C8 counterexample: with one stored tip of category Memory, a request
with the explicitly given category equal to the empty string returns that tip
even though no stored tip matches the category filter — the claim as stated
requires a 404 here, and the returned tip does not belong to the requested
category. -/
theorem claim_C8_counterexample :
    random_tip exTipDb (some ("")) 0 = some exTip ∧
    exTip.category ≠ "" ∧
    exTipDb.tip.filter (fun t => decide (t.category = "")) = [] := by decide

/-- Claim C8 (amended): `random_tip` returns nothing exactly when no stored
tip passes the effective category filter, where an absent or empty-string
category imposes no restriction (Python truthiness); any returned tip is a
stored tip passing that filter, and belongs to the requested category whenever
a non-empty category was given. -/
theorem claim_C8_amended (db : DB) (category : Option String) (k : Nat) :
    (random_tip db category k = none ↔
      ∀ t ∈ db.tip, categoryOk category t = false) ∧
    (∀ t, random_tip db category k = some t →
      t ∈ db.tip ∧ categoryOk category t = true ∧
      ∀ c, category = some c → c ≠ "" → t.category = c) := by
  constructor
  · rw [random_tip_eq_none_iff]
    simp [List.filter_eq_nil_iff]
  · intro t ht
    have hm := random_tip_mem db category k t ht
    rw [List.mem_filter] at hm
    refine ⟨hm.1, hm.2, ?_⟩
    intro c hc hne
    have h2 := hm.2
    rw [hc] at h2
    simpa [categoryOk, hne] using h2

/-- Witness for C8: with the category Memory given, the sampled tip exists and
belongs to that category. -/
theorem claim_C8_amended_witness :
    random_tip exTipDb (some ("Memory")) 0 = some exTip ∧
    exTip.category = "Memory" := by
  refine ⟨by decide, ?_⟩
  exact ((claim_C8_amended exTipDb (some ("Memory")) 0).2 exTip
    (by decide)).2.2 ("Memory") rfl (by decide)

/-! Helper lemmas for the regex fragment versus the substring reading. -/

theorem matchAt_eq_leadsCI (p t : List Char) (hp : '.' ∉ p) :
    matchAt p t = leadsCI p t := by
  induction p generalizing t with
  | nil => cases t <;> rfl
  | cons pc ps ih =>
      cases t with
      | nil => rfl
      | cons tc ts =>
          have hpc : (pc == '.') = false := by
            simp only [beq_eq_false_iff_ne, ne_eq]
            intro h
            exact hp (h ▸ List.mem_cons_self pc ps)
          have hps : '.' ∉ ps := fun h => hp (List.mem_cons_of_mem _ h)
          simp [matchAt, leadsCI, charMatchesI, hpc, ih _ hps]

theorem searchFrom_eq_subSearchCI (p t : List Char) (hp : '.' ∉ p) :
    searchFrom p t = subSearchCI p t := by
  induction t with
  | nil => rfl
  | cons tc ts ih => simp [searchFrom, subSearchCI, matchAt_eq_leadsCI _ _ hp, ih]

theorem regexSearchI_eq_containsCI (q s : String) (hq : metacharFree q) :
    regexSearchI q s = containsCI s q := by
  have hdot : '.' ∉ q.toList := by
    intro h
    have := hq '.' h
    simp [regexMetachars] at this
  exact searchFrom_eq_subSearchCI _ _ hdot

theorem subSearchCI_nil_pat (t : List Char) : subSearchCI [] t = true := by
  cases t <;> simp [subSearchCI, leadsCI]

theorem leadsCI_iff (p t : List Char) :
    leadsCI p t = true ↔
      List.IsPrefix (p.map Char.toLower) (t.map Char.toLower) := by
  induction p generalizing t with
  | nil => simp [leadsCI]
  | cons pc ps ih =>
      cases t with
      | nil => simp [leadsCI]
      | cons tc ts => simp [leadsCI, ih, List.cons_prefix_cons]

theorem subSearchCI_iff (p t : List Char) :
    subSearchCI p t = true ↔
      List.IsInfix (p.map Char.toLower) (t.map Char.toLower) := by
  induction t with
  | nil =>
      simp [subSearchCI, List.isEmpty_iff]
  | cons tc ts ih =>
      simp only [subSearchCI, List.map_cons, List.infix_cons_iff,
        Bool.or_eq_true, leadsCI_iff, ih, List.map_cons]

theorem containsCI_iff (s sub : String) :
    containsCI s sub = true ↔
      List.IsInfix (sub.toList.map Char.toLower) (s.toList.map Char.toLower) :=
  subSearchCI_iff _ _

/-! Helper lemmas for the leaderboard pipeline. -/

theorem mem_insertPairDesc {x y : String × Int} {l : List (String × Int)} :
    y ∈ insertPairDesc x l ↔ y = x ∨ y ∈ l := by
  induction l with
  | nil => simp [insertPairDesc]
  | cons z zs ih =>
      by_cases h : z.2 < x.2
      · simp [insertPairDesc, h]
      · simp [insertPairDesc, h, ih, or_left_comm]

theorem perm_insertPairDesc (x : String × Int) (l : List (String × Int)) :
    List.Perm (insertPairDesc x l) (x :: l) := by
  induction l with
  | nil => exact List.Perm.refl _
  | cons z zs ih =>
      by_cases h : z.2 < x.2
      · simp [insertPairDesc, h]
      · simp only [insertPairDesc, if_neg h]
        exact (ih.cons z).trans (List.Perm.swap x z zs)

theorem perm_sortPairsDesc (l : List (String × Int)) :
    List.Perm (sortPairsDesc l) l := by
  induction l with
  | nil => exact List.Perm.refl _
  | cons x xs ih =>
      exact (perm_insertPairDesc x (sortPairsDesc xs)).trans (ih.cons x)

theorem pairwise_insertPairDesc {x : String × Int} {l : List (String × Int)}
    (h : l.Pairwise (fun a b => b.2 ≤ a.2)) :
    (insertPairDesc x l).Pairwise (fun a b => b.2 ≤ a.2) := by
  induction l with
  | nil => simp [insertPairDesc]
  | cons z zs ih =>
      rcases List.pairwise_cons.mp h with ⟨hz, hzs⟩
      by_cases hlt : z.2 < x.2
      · simp only [insertPairDesc, if_pos hlt]
        refine List.pairwise_cons.mpr ⟨?_, h⟩
        intro b hb
        rcases List.mem_cons.mp hb with rfl | hb
        · exact le_of_lt hlt
        · exact le_trans (hz b hb) (le_of_lt hlt)
      · simp only [insertPairDesc, if_neg hlt]
        refine List.pairwise_cons.mpr ⟨?_, ih hzs⟩
        intro b hb
        rcases mem_insertPairDesc.mp hb with rfl | hb
        · omega
        · exact hz b hb

theorem pairwise_sortPairsDesc (l : List (String × Int)) :
    (sortPairsDesc l).Pairwise (fun a b => b.2 ≤ a.2) := by
  induction l with
  | nil => simp [sortPairsDesc]
  | cons x xs ih => exact pairwise_insertPairDesc ih

theorem groupPoints_fst (db : DB) (now : DateTime) (period : Period) :
    (groupPoints db now period).map (fun r => r.1) =
      ((lbMatched db now period).map (fun s => s.user)).dedup := by
  unfold groupPoints
  rw [List.map_map]
  exact List.map_id' _

theorem contrib_filter_eq (db : DB) (now : DateTime) (period : Period)
    (u : String) :
    (lbMatched db now period).filter (fun s => decide (s.user = u)) =
      db.session.filter (fun s => decide (s.user = u ∧
        s.status = SessionStatus.completed ∧
        (period = Period.week → now - 7 * 1440 ≤ s.ended_at))) := by
  unfold lbMatched
  rw [List.filter_filter]
  apply List.filter_congr
  intro s _
  cases period with
  | all =>
      by_cases h1 : s.user = u <;>
        by_cases h2 : s.status = SessionStatus.completed <;>
        simp [sessionInWindow, h1, h2]
  | week =>
      by_cases h1 : s.user = u <;>
        by_cases h2 : s.status = SessionStatus.completed <;>
        by_cases h3 : now - 7 * 1440 ≤ s.ended_at <;>
        simp [sessionInWindow, h1, h2, h3]

/-- Claim C6: the leaderboard sums `points_earned` per user over completed
sessions only (restricted to the last 7 days for the weekly period), returns
at most `limit` rows with pairwise distinct usernames, sorted by descending
total points, each joined with the stored level (1 when no profile exists),
and every row is backed by at least one contributing session. -/
theorem claim_C6 (db : DB) (now : DateTime) (period : Period) (limit : Nat) :
    (leaderboard db now period limit).length =
      min limit (groupPoints db now period).length ∧
    (leaderboard db now period limit).length ≤ limit ∧
    (leaderboard db now period limit).Pairwise
      (fun r1 r2 => r2.points ≤ r1.points) ∧
    ((leaderboard db now period limit).map (fun r => r.username)).Nodup ∧
    ∀ r ∈ leaderboard db now period limit,
      r.points = ((db.session.filter (fun s => decide (s.user = r.username ∧
          s.status = SessionStatus.completed ∧
          (period = Period.week → now - 7 * 1440 ≤ s.ended_at)))).map
            (fun s => s.points_earned)).sum ∧
      r.level = levelOf db r.username ∧
      ∃ s ∈ db.session, s.user = r.username ∧
        s.status = SessionStatus.completed ∧
        (period = Period.week → now - 7 * 1440 ≤ s.ended_at) := by
  have hperm := perm_sortPairsDesc (groupPoints db now period)
  have hpair := pairwise_sortPairsDesc (groupPoints db now period)
  refine ⟨?_, ?_, ?_, ?_, ?_⟩
  · simp only [leaderboard, List.length_map, List.length_take]
    rw [hperm.length_eq]
  · simp only [leaderboard, List.length_map, List.length_take]
    exact min_le_left _ _
  · have h1 : ((sortPairsDesc (groupPoints db now period)).take limit).Pairwise
        (fun a b => b.2 ≤ a.2) := hpair.sublist (List.take_sublist _ _)
    simp only [leaderboard]
    exact h1.map _ (fun a b hab => hab)
  · have h2 : ((sortPairsDesc (groupPoints db now period)).map
        (fun r => r.1)).Nodup :=
      ((hperm.map (fun r => r.1)).nodup_iff).mpr
        (by rw [groupPoints_fst]; exact List.nodup_dedup _)
    have h3 : (((sortPairsDesc (groupPoints db now period)).take limit).map
        (fun r => r.1)).Nodup :=
      h2.sublist ((List.take_sublist _ _).map _)
    simp only [leaderboard, List.map_map]
    exact h3
  · intro r hr
    simp only [leaderboard, List.mem_map] at hr
    obtain ⟨pr, hpr, rfl⟩ := hr
    have hmem : pr ∈ groupPoints db now period :=
      hperm.mem_iff.mp (List.take_subset _ _ hpr)
    unfold groupPoints at hmem
    simp only [List.mem_map] at hmem
    obtain ⟨u, hu, rfl⟩ := hmem
    dsimp only
    refine ⟨?_, rfl, ?_⟩
    · rw [contrib_filter_eq db now period u]
    · rw [List.mem_dedup] at hu
      simp only [List.mem_map] at hu
      obtain ⟨s, hs, hsu⟩ := hu
      unfold lbMatched at hs
      rw [List.mem_filter] at hs
      refine ⟨s, hs.1, ?_⟩
      have hw := hs.2
      cases period with
      | all =>
          simp only [sessionInWindow, Bool.and_eq_true, decide_eq_true_eq] at hw
          exact ⟨hsu, hw.1, fun h => absurd h (by decide)⟩
      | week =>
          simp only [sessionInWindow, Bool.and_eq_true, decide_eq_true_eq] at hw
          exact ⟨hsu, hw.1, fun _ => hw.2⟩

/-- Witness for C6: on the fixture database the top row is user b with 125
points, and its points equal the filtered sum. -/
theorem claim_C6_witness :
    exRowB ∈ leaderboard exDbLB exNow Period.week 10 ∧
    exRowB.points = ((exDbLB.session.filter (fun s =>
        decide (s.user = exRowB.username ∧
          s.status = SessionStatus.completed ∧
          (Period.week = Period.week → exNow - 7 * 1440 ≤ s.ended_at)))).map
            (fun s => s.points_earned)).sum := by
  refine ⟨by decide, ?_⟩
  exact ((claim_C6 exDbLB exNow Period.week 10).2.2.2.2 exRowB (by decide)).1

/-- Claim C9 counterexample: with one stored tip titled x (category Memory, no
tags), the query string dot is passed to the title match as an unescaped
regular expression and matches the title, so the tip is returned although its
title does not contain a dot as a (case-insensitive) substring and its tags do
not contain the query; likewise an explicitly given empty-string category is
ignored rather than restricting to tips of category empty string. -/
theorem claim_C9_counterexample :
    list_tips exTipDb none (some (".")) 24 = [exTip] ∧
    containsCI exTip.title (".") = false ∧
    ("." ∈ exTip.tags → False) ∧
    list_tips exTipDb (some ("")) none 24 = [exTip] ∧
    exTip.category ≠ "" := by decide

/-- Claim C9 (amended): for every query string free of regular-expression
metacharacters, `list_tips` returns exactly the stored tips — in order, `limit`
0 meaning no limit — that pass the category restriction (an absent or
empty-string category imposes none) and whose title contains the query as a
case-insensitive substring or whose tags contain it exactly; for general query
strings the title condition is case-insensitive unanchored regex match of the
raw query instead.  The second conjunct certifies that `containsCI` is exactly
case-insensitive substring containment. -/
theorem claim_C9_amended (db : DB) (category : Option String) (q : String)
    (limit : Nat) (hq : metacharFree q) :
    list_tips db category (some q) limit =
      mongoLimit limit (db.tip.filter
        (fun t => categoryOk category t &&
          (containsCI t.title q || decide (q ∈ t.tags)))) ∧
    ∀ s : String, containsCI s q = true ↔
      List.IsInfix (q.toList.map Char.toLower) (s.toList.map Char.toLower) := by
  constructor
  · simp only [list_tips]
    congr 1
    apply List.filter_congr
    intro t _
    by_cases h0 : q = ""
    · subst h0
      simp [containsCI, subSearchCI_nil_pat]
    · rw [if_neg h0, regexSearchI_eq_containsCI q t.title hq]
  · intro s
    exact containsCI_iff s q

/-- Witness for C9: the metacharacter-free query hard returns exactly the tip
whose title contains it case-insensitively. -/
theorem claim_C9_amended_witness :
    metacharFree ("hard") ∧
    list_tips exTipDbHard none (some ("hard")) 24 =
      mongoLimit 24 (exTipDbHard.tip.filter
        (fun t => categoryOk none t &&
          (containsCI t.title ("hard") || decide ("hard" ∈ t.tags)))) := by
  refine ⟨by decide, ?_⟩
  exact (claim_C9_amended exTipDbHard none ("hard") 24 (by decide)).1

end StudySpace
